import Mathlib

/-!
Verification development for the ppq `api/interface.py` pipeline
(graph dispatching, override reconciliation, normalization pipeline,
and the user-facing quantization setting translation).

The definitions below are a shallow embedding of `src/ppq/api/interface.py`.
Collaborators of that file that live outside the provided sources
(the `TargetPlatform` enum of `ppq.core`, the dispatcher registry of
`ppq.scheduler`, the setting tree of `ppq/api/setting.py`, and the
graph rewrite passes of `ppq.IR`) are modelled from the specification,
each with a doc comment saying so; everything else is translated
directly from the Python source.
-/

set_option maxHeartbeats 1000000

deriving instance DecidableEq for Except

/-- Modelled from the spec: the closed platform enum (`ppq.core.TargetPlatform`,
not under src/). Members are those referenced by `interface.py`; the spec
requires at least `Unspecified`, `FP32`, `ShapeOrIndex`, `Extension` and the
quantized-accelerator kinds. -/
inductive TargetPlatform where
  | UNSPECIFIED
  | PPL_DSP_INT8
  | PPL_DSP_TI_IN8
  | SNPE_INT8
  | TRT_INT8
  | NXP_INT8
  | ORT_OOS_INT8
  | FP32
  | METAX_INT8_C
  | METAX_INT8_T
  | PPL_CUDA_INT8
  | EXTENSION
  | PPL_CUDA_MIX
  | PPL_CUDA_INT4
  | ACADEMIC_INT8
  | ACADEMIC_INT4
  | ACADEMIC_MIX
  | ONNX
  | ONNXRUNTIME
  | CAFFE
  | NATIVE
  | SHAPE_OR_INDEX
  deriving DecidableEq, Repr

/-- Modelled from the spec: the integer code of each platform member
(`ppq.core.TargetPlatform` values are not under src/). Codes are distinct;
the spec's Scenario B fixes 7 as a valid fp32 platform code, and Scenario D
uses 999 as an invalid code, so no member is assigned 999. -/
def TargetPlatform.code : TargetPlatform → Int
  | .UNSPECIFIED => 0
  | .PPL_DSP_INT8 => 1
  | .PPL_DSP_TI_IN8 => 2
  | .SNPE_INT8 => 3
  | .TRT_INT8 => 4
  | .NXP_INT8 => 5
  | .ORT_OOS_INT8 => 6
  | .FP32 => 7
  | .METAX_INT8_C => 8
  | .METAX_INT8_T => 9
  | .PPL_CUDA_INT8 => 10
  | .EXTENSION => 11
  | .PPL_CUDA_MIX => 12
  | .PPL_CUDA_INT4 => 13
  | .ACADEMIC_INT8 => 14
  | .ACADEMIC_INT4 => 15
  | .ACADEMIC_MIX => 16
  | .ONNX => 17
  | .ONNXRUNTIME => 18
  | .CAFFE => 19
  | .NATIVE => 20
  | .SHAPE_OR_INDEX => 21

/-- All members of the platform enum, in declaration order. -/
def TargetPlatform.members : List TargetPlatform :=
  [.UNSPECIFIED, .PPL_DSP_INT8, .PPL_DSP_TI_IN8, .SNPE_INT8, .TRT_INT8,
   .NXP_INT8, .ORT_OOS_INT8, .FP32, .METAX_INT8_C, .METAX_INT8_T,
   .PPL_CUDA_INT8, .EXTENSION, .PPL_CUDA_MIX, .PPL_CUDA_INT4,
   .ACADEMIC_INT8, .ACADEMIC_INT4, .ACADEMIC_MIX, .ONNX, .ONNXRUNTIME,
   .CAFFE, .NATIVE, .SHAPE_OR_INDEX]

/-- Modelled from the spec: decoding an externally supplied integer platform
code, i.e. the Python enum call `TargetPlatform(value)`, which raises
`ValueError` when no member carries that value; here the failure is `none`. -/
def TargetPlatform.decode (n : Int) : Option TargetPlatform :=
  TargetPlatform.members.find? (fun p => p.code == n)

/-- Modelled from the spec: the Python enum member name strings
(`TargetPlatform._member_names_`), used by the settings loader. -/
def TargetPlatform.memberName : TargetPlatform → String
  | .UNSPECIFIED => "UNSPECIFIED"
  | .PPL_DSP_INT8 => "PPL_DSP_INT8"
  | .PPL_DSP_TI_IN8 => "PPL_DSP_TI_IN8"
  | .SNPE_INT8 => "SNPE_INT8"
  | .TRT_INT8 => "TRT_INT8"
  | .NXP_INT8 => "NXP_INT8"
  | .ORT_OOS_INT8 => "ORT_OOS_INT8"
  | .FP32 => "FP32"
  | .METAX_INT8_C => "METAX_INT8_C"
  | .METAX_INT8_T => "METAX_INT8_T"
  | .PPL_CUDA_INT8 => "PPL_CUDA_INT8"
  | .EXTENSION => "EXTENSION"
  | .PPL_CUDA_MIX => "PPL_CUDA_MIX"
  | .PPL_CUDA_INT4 => "PPL_CUDA_INT4"
  | .ACADEMIC_INT8 => "ACADEMIC_INT8"
  | .ACADEMIC_INT4 => "ACADEMIC_INT4"
  | .ACADEMIC_MIX => "ACADEMIC_MIX"
  | .ONNX => "ONNX"
  | .ONNXRUNTIME => "ONNXRUNTIME"
  | .CAFFE => "CAFFE"
  | .NATIVE => "NATIVE"
  | .SHAPE_OR_INDEX => "SHAPE_OR_INDEX"

/-- The list of recognized platform name strings. -/
def TargetPlatform.memberNames : List String :=
  TargetPlatform.members.map TargetPlatform.memberName

/-- The keys of `QUANTIZER_COLLECTION` in `interface.py` (lines 30-47), in
source order. -/
def quantizerPlatforms : List TargetPlatform :=
  [.PPL_DSP_INT8, .PPL_DSP_TI_IN8, .SNPE_INT8, .TRT_INT8, .NXP_INT8,
   .ORT_OOS_INT8, .METAX_INT8_C, .METAX_INT8_T, .PPL_CUDA_INT8, .EXTENSION,
   .PPL_CUDA_MIX, .PPL_CUDA_INT4, .ACADEMIC_INT8, .ACADEMIC_INT4,
   .ACADEMIC_MIX]

/-- Modelled from the spec: `TargetPlatform.is_quantized_platform` lives in
`ppq.core` (not under src/). The spec calls these the quantized-accelerator
kinds; modelled as exactly the platforms for which a quantizer is registered. -/
def TargetPlatform.is_quantized_platform (p : TargetPlatform) : Bool :=
  quantizerPlatforms.contains p

/-- The Python exception kinds raised by `interface.py`. -/
inductive PPQError where
  | assertionError (msg : String)
  | valueError (msg : String)
  | keyError (msg : String)
  | typeError (msg : String)
  deriving DecidableEq, Repr

/-- A value of a dispatching-table override entry. In Python these values are
dynamically typed; `interface.py` line 578 asserts `isinstance(platform, int)`,
so the embedding distinguishes integers from any other value (represented by a
string payload). -/
inductive OverrideValue where
  | intVal (n : Int)
  | strVal (s : String)
  deriving DecidableEq, Repr

/-- Association-list lookup (Python `dict` access), first matching key wins. -/
def alFind {α : Type} : List (String × α) → String → Option α
  | [], _ => none
  | (k, v) :: rest, n => if k = n then some v else alFind rest n

/-- Association-list update (Python `dict` assignment): replace the first
binding of the key, or append a new binding when the key is absent. -/
def alSet {α : Type} : List (String × α) → String → α → List (String × α)
  | [], n, p => [(n, p)]
  | (k, v) :: rest, n, p =>
    if k = n then (n, p) :: rest else (k, v) :: alSet rest n p

/-- Association-list key membership (Python `key in dict`). -/
def alHasKey {α : Type} (l : List (String × α)) (n : String) : Bool :=
  (alFind l n).isSome

/-- A graph operation: name, op-kind tag and the mutable platform field
(initially `UNSPECIFIED` per the spec's data model). -/
structure Operation where
  name : String
  optype : String
  platform : TargetPlatform
  deriving DecidableEq, Repr

/-- The graph: operations keyed by unique name (`graph.operations` in ppq).
Variables and edges are not needed by the properties below. -/
structure BaseGraph where
  operations : List Operation
  deriving DecidableEq, Repr

/-- Python `opname in graph.operations` (a name-keyed dict). -/
def BaseGraph.hasOp (g : BaseGraph) (n : String) : Bool :=
  g.operations.any (fun op => op.name == n)

/-- Python `str.lower`. -/
def strLower (s : String) : String := String.mk (s.data.map Char.toLower)

/-- Modelled from the spec: the dispatcher registry
(`ppq.scheduler.DISPATCHER_TABLE`, not under src/) is a fixed table of
recognized dispatcher kind names; the default setting uses the first one. -/
def dispatcherNames : List String := ["conservative", "pointwise", "aggresive"]

/-- The override loop of `dispatch_graph` (`interface.py` lines 574-582):
for each override entry, a name absent from the graph is skipped; otherwise
the value must be an int (`assert isinstance(platform, int)`) that decodes to
a platform member (`TargetPlatform(platform)`), and the table entry for that
name is overwritten. -/
def applyOverrides (graph : BaseGraph) :
    List (String × TargetPlatform) → List (String × OverrideValue) →
    Except PPQError (List (String × TargetPlatform))
  | table, [] => Except.ok table
  | table, (opname, v) :: rest =>
    if graph.hasOp opname = false then applyOverrides graph table rest
    else
      match v with
      | OverrideValue.intVal n =>
        match TargetPlatform.decode n with
        | some p => applyOverrides graph (alSet table opname p) rest
        | none => Except.error (PPQError.valueError
            "invalid platform code in dispatching table")
      | OverrideValue.strVal _ => Except.error (PPQError.assertionError
          "dispatching table platform setting is expected given as int")

/-- The commit loop of `dispatch_graph` (`interface.py` lines 584-587):
walk the operations in order, asserting each has a dispatching-table entry
and writing that entry into the operation's platform field. On a missing
entry the loop stops with an `AssertionError`, leaving the operations already
visited mutated and the rest untouched (in-place mutation order preserved). -/
def commitLoop (table : List (String × TargetPlatform)) :
    List Operation → List Operation × Option PPQError
  | [] => ([], none)
  | op :: rest =>
    match alFind table op.name with
    | some p =>
      let r := commitLoop table rest
      ({ op with platform := p } :: r.1, r.2)
    | none => (op :: rest, some (PPQError.assertionError
        "Internal Error, can not find operation in dispatching table"))

/-- Modelled from the spec: `GraphDeviceSwitcher` / `INSERT_SWITCHER`
(`ppq.IR.morph`, not under src/) only appends synthetic DeviceSwitch nodes on
cross-platform edges and never changes an existing operation's platform.
Edges are not part of this embedding, so the appended synthetic nodes are
omitted and the committed operations are returned unchanged. -/
def insertSwitchers (g : BaseGraph) : BaseGraph := g

/-- The internal advanced-optimization subtree touched by the settings
translator. Modelled from the spec: the setting tree (`ppq/api/setting.py`)
is not under src/; only fields written by `interface.py` appear. -/
structure AdvancedOptimizationSetting where
  steps : Int
  lr : Rat
  limit : Rat
  interested_outputs : Option (List String)
  deriving DecidableEq, Repr

/-- The internal equalization subtree touched by the settings translator
(modelled from the spec, see `AdvancedOptimizationSetting`). -/
structure EqualizationSetting where
  iterations : Int
  opt_level : Int
  value_threshold : Rat
  deriving DecidableEq, Repr

/-- The internal activation-quantization subtree touched by the settings
translator (modelled from the spec). -/
structure ActivationSetting where
  calib_algorithm : String
  deriving DecidableEq, Repr

/-- The internal fusion subtree touched by the settings translator
(modelled from the spec). -/
structure FusionSetting where
  fuse_conv_add : Bool
  force_alignment_overlap : Bool
  deriving DecidableEq, Repr

/-- The internal `QuantizationSetting` tree, restricted to the fields that
`interface.py` reads or writes: the dispatcher kind name and dispatching-table
overrides consumed by `dispatch_graph`, and the subtrees written by
`convert_to_daddy_setting`. Modelled from the spec for the parts living in
`ppq/api/setting.py` (not under src/). -/
structure QuantizationSetting where
  dispatcher : String
  dispatching_table : List (String × OverrideValue)
  quantize_activation_setting : ActivationSetting
  fusion_setting : FusionSetting
  advanced_optimization : Bool
  advanced_optimization_setting : AdvancedOptimizationSetting
  equalization : Bool
  equalization_setting : EqualizationSetting
  deriving DecidableEq, Repr

/-- Modelled from the spec: `QuantizationSettingFactory.default_setting()`
(`ppq/api/setting.py`, not under src/): the default dispatcher kind with an
empty override table and inert optimization defaults. -/
def default_setting : QuantizationSetting :=
  { dispatcher := "conservative"
    dispatching_table := []
    quantize_activation_setting := { calib_algorithm := "percentile" }
    fusion_setting := { fuse_conv_add := false, force_alignment_overlap := false }
    advanced_optimization := false
    advanced_optimization_setting :=
      { steps := 0, lr := 0, limit := 0, interested_outputs := none }
    equalization := false
    equalization_setting :=
      { iterations := 0, opt_level := 0, value_threshold := 0 } }

/-- Embedding of `dispatch_graph` (`interface.py` lines 542-592). The
automatic dispatcher `dispatcher.dispatch(...)` is external
(`ppq.scheduler`, not under src/), so its proposal enters as the parameter
`autoTable`. The result pairs the graph state after the call (faithful to
in-place mutation: unchanged on errors raised before the commit loop) with
either the final dispatching table or the raised error. -/
def dispatch_graph (autoTable : List (String × TargetPlatform))
    (graph : BaseGraph) (platform : TargetPlatform)
    (setting : QuantizationSetting) :
    BaseGraph × Except PPQError (List (String × TargetPlatform)) :=
  if quantizerPlatforms.contains platform = false then
    (graph, Except.error (PPQError.assertionError "Platform misunderstood"))
  else if dispatcherNames.contains (strLower setting.dispatcher) = false then
    (graph, Except.error (PPQError.valueError "Can not found dispatcher type"))
  else
    match applyOverrides graph autoTable setting.dispatching_table with
    | Except.error e => (graph, Except.error e)
    | Except.ok table =>
      match commitLoop table graph.operations with
      | (ops, some e) => (BaseGraph.mk ops, Except.error e)
      | (ops, none) => (insertSwitchers (BaseGraph.mk ops), Except.ok table)

/-- The graph rewrite command tags issued by `interface.py`
(`GraphCommandType` of `ppq.IR`; only the tags `interface.py` issues). -/
inductive GraphCommandType where
  | FORMAT_CONSTANT_INPUT
  | FUSE_BN
  | FORMAT_PARAMETERS
  | FORMAT_CAST
  | FORMAT_SLICE
  | FORMAT_CLIP
  | DELETE_ISOLATED
  | INSERT_SWITCHER
  deriving DecidableEq, Repr

/-- The sequence of rewrite commands `format_graph` issues, in the source
order of `interface.py` lines 531-537. -/
def format_graph_commands : List GraphCommandType :=
  [.FORMAT_CONSTANT_INPUT, .FUSE_BN, .FORMAT_PARAMETERS, .FORMAT_CAST,
   .FORMAT_SLICE, .FORMAT_CLIP, .DELETE_ISOLATED]

/-- Embedding of `format_graph` (`interface.py` lines 505-539): the formatter
object executing each rewrite command is external (`ppq.IR`, not under src/),
so it enters as the interpreter `exec`; `format_graph` issues the fixed
command sequence to it, left to right. -/
def format_graph (exec : GraphCommandType → BaseGraph → BaseGraph)
    (graph : BaseGraph) : BaseGraph :=
  format_graph_commands.foldl (fun g c => exec c g) graph

/-- Embedding of the entry checks and pipeline of `quantize_onnx_model`
(`interface.py` lines 176-272). File parsing is external, so the loaded graph
enters as the thunk `loadGraph`, evaluated only after the entry checks pass
(matching the source order: checks at lines 238-244, graph loading at 249);
`execFmt` interprets the normalization rewrites and `autoTable` is the
automatic dispatcher's proposal. The calibration dataloader is abstracted to
its presence and `calib_steps` to `none`-or-int, which is all lines 242-244
inspect. The external quantizer invoked after dispatch returns its graph
unchanged in this embedding. -/
def quantize_onnx_model (execFmt : GraphCommandType → BaseGraph → BaseGraph)
    (loadGraph : Unit → BaseGraph)
    (autoTable : List (String × TargetPlatform))
    (calib_dataloader : Option Unit) (calib_steps : Option Int)
    (setting : Option QuantizationSetting) (platform : TargetPlatform)
    (do_quantize : Bool) : Except PPQError BaseGraph :=
  if TargetPlatform.is_quantized_platform platform = false then
    Except.error (PPQError.valueError
      "Target Platform is an non-quantable platform")
  else if quantizerPlatforms.contains platform = false then
    Except.error (PPQError.keyError
      "Target Platform is not supported by ppq right now")
  else if do_quantize && (calib_dataloader.isNone || calib_steps.isNone) then
    Except.error (PPQError.typeError
      "Quantization needs a valid calib_dataloader and calib_steps setting")
  else
    let s := setting.getD default_setting
    let g := format_graph execFmt (loadGraph ())
    match dispatch_graph autoTable g platform s with
    | (_, Except.error e) => Except.error e
    | (g2, Except.ok _) => Except.ok g2

/-- Embedding of the entry checks and pipeline of `quantize_caffe_model`
(`interface.py` lines 348-451): identical checks (lines 413-419) followed by
load, `format_graph` and `dispatch_graph` (lines 424-429). Abstractions as in
`quantize_onnx_model`. -/
def quantize_caffe_model (execFmt : GraphCommandType → BaseGraph → BaseGraph)
    (loadGraph : Unit → BaseGraph)
    (autoTable : List (String × TargetPlatform))
    (calib_dataloader : Option Unit) (calib_steps : Option Int)
    (setting : Option QuantizationSetting) (platform : TargetPlatform)
    (do_quantize : Bool) : Except PPQError BaseGraph :=
  if TargetPlatform.is_quantized_platform platform = false then
    Except.error (PPQError.valueError
      "Target Platform is an non-quantable platform")
  else if quantizerPlatforms.contains platform = false then
    Except.error (PPQError.keyError
      "Target Platform is not supported by ppq right now")
  else if do_quantize && (calib_dataloader.isNone || calib_steps.isNone) then
    Except.error (PPQError.typeError
      "Quantization needs a valid calib_dataloader and calib_steps setting")
  else
    let s := setting.getD default_setting
    let g := format_graph execFmt (loadGraph ())
    match dispatch_graph autoTable g platform s with
    | (_, Except.error e) => Except.error e
    | (g2, Except.ok _) => Except.ok g2

/-- A Python value that either is a string, a list of strings, or `None`;
the dynamic type of the `non_quantable_op` and `interested_outputs`
constructor arguments of the user-facing setting. -/
inductive PyStrOrList where
  | pstr (s : String)
  | plist (xs : List String)
  | pnone
  deriving DecidableEq, Repr

/-- The user-facing setting object
(`UnbelievableUserFriendlyQuantizationSetting`, `interface.py` lines
595-701), with the fields its `__init__` assigns (lines 620-626). -/
structure UUFQSetting where
  equalization : Bool
  finetune_steps : Int
  finetune_lr : Rat
  calibration : String
  platform : TargetPlatform
  non_quantable_op : Option (List String)
  interested_outputs : Option (List String)
  deriving DecidableEq, Repr

/-- The string-to-singleton-list coercion of `__init__` lines 628-629:
`if isinstance(x, str): x = [x]`. -/
def coerceStrOrList : PyStrOrList → Option (List String)
  | PyStrOrList.pstr s => some [s]
  | PyStrOrList.plist xs => some xs
  | PyStrOrList.pnone => none

/-- Embedding of `UnbelievableUserFriendlyQuantizationSetting.__init__`
(`interface.py` lines 602-629): field assignment followed by the
string-to-list coercion of `non_quantable_op` and `interested_outputs`. -/
def UUFQSetting.init (platform : TargetPlatform) (finetune_steps : Int)
    (finetune_lr : Rat) (interested_outputs : PyStrOrList)
    (calibration : String) (equalization : Bool)
    (non_quantable_op : PyStrOrList) : UUFQSetting :=
  { equalization := equalization
    finetune_steps := finetune_steps
    finetune_lr := finetune_lr
    calibration := calibration
    platform := platform
    non_quantable_op := coerceStrOrList non_quantable_op
    interested_outputs := coerceStrOrList interested_outputs }

/-- Embedding of `convert_to_daddy_setting` (`interface.py` lines 631-663).
`DispatchingTable.append` lives in `ppq/api/setting.py` (not under src/) and
is modelled from the spec: it appends an override entry binding the operation
name to the platform's integer code. The `non_quantable_op` entries are typed
as strings, so the per-name `isinstance(op_name, str)` assertion never fires. -/
def UUFQSetting.convert_to_daddy_setting (self : UUFQSetting) :
    QuantizationSetting :=
  let daddy := default_setting
  let daddy := { daddy with quantize_activation_setting :=
    { daddy.quantize_activation_setting with
        calib_algorithm := self.calibration } }
  let daddy :=
    if self.platform = TargetPlatform.PPL_CUDA_INT4 ∨
       self.platform = TargetPlatform.PPL_CUDA_INT8 then
      { daddy with fusion_setting :=
        { daddy.fusion_setting with fuse_conv_add := true } }
    else
      { daddy with fusion_setting :=
        { daddy.fusion_setting with fuse_conv_add := false } }
  let daddy :=
    if self.platform = TargetPlatform.METAX_INT8_C ∨
       self.platform = TargetPlatform.METAX_INT8_T then
      { daddy with fusion_setting :=
        { daddy.fusion_setting with force_alignment_overlap := true } }
    else daddy
  let daddy :=
    if self.finetune_steps > 0 then
      { daddy with
          advanced_optimization := true
          advanced_optimization_setting :=
            { steps := self.finetune_steps
              lr := self.finetune_lr
              limit := 2
              interested_outputs := self.interested_outputs } }
    else daddy
  let daddy :=
    if self.equalization = true then
      { daddy with
          equalization := true
          equalization_setting :=
            { iterations := 3, opt_level := 1, value_threshold := 0 } }
    else daddy
  match self.non_quantable_op with
  | none => daddy
  | some names =>
    let t2 := names.foldl
      (fun t n => t ++ [(n, OverrideValue.intVal (TargetPlatform.code .FP32))])
      daddy.dispatching_table
    { daddy with dispatching_table := t2 }

/-- A parsed JSON value as stored in the user-facing setting's field
dictionary. The `jplatform` constructor represents the in-memory
`TargetPlatform` member held by the `platform` field (never produced by the
JSON parser itself). -/
inductive JsonValue where
  | jstr (s : String)
  | jint (n : Int)
  | jrat (q : Rat)
  | jbool (b : Bool)
  | jstrlist (xs : List String)
  | jnull
  | jplatform (p : TargetPlatform)
  deriving DecidableEq, Repr

/-- The field dictionary (`setting.__dict__`) of a freshly constructed
`UnbelievableUserFriendlyQuantizationSetting(platform)`: the seven fields
assigned by `__init__` (lines 620-626) with their default argument values
(steps 5000, lr 3e-4, calibration percentile, equalization True, the two
optional lists None). -/
def uufqsInitDict (platform : TargetPlatform) : List (String × JsonValue) :=
  [("equalization", JsonValue.jbool true),
   ("finetune_steps", JsonValue.jint 5000),
   ("finetune_lr", JsonValue.jrat (3 / 10000)),
   ("calibration", JsonValue.jstr "percentile"),
   ("platform", JsonValue.jplatform platform),
   ("non_quantable_op", JsonValue.jnull),
   ("interested_outputs", JsonValue.jnull)]

/-- The field-loading loop of `from_file` (`interface.py` lines 693-696):
each loaded key other than `platform` overwrites the matching field of the
fresh setting's dictionary when the key is recognized, and is otherwise
collected as a warning (`ppq_warning`) while loading continues. -/
def applyLoaded (d : List (String × JsonValue)) (warns : List String) :
    List (String × JsonValue) → List (String × JsonValue) × List String
  | [] => (d, warns)
  | (k, v) :: rest =>
    if k = "platform" then applyLoaded d warns rest
    else if alHasKey d k = true then applyLoaded (alSet d k v) warns rest
    else applyLoaded d (warns ++ [k]) rest

/-- Embedding of `UnbelievableUserFriendlyQuantizationSetting.from_file`
(`interface.py` lines 678-698), from the point where the JSON document has
been parsed into a dictionary (file access and JSON parsing are external).
A missing `platform` key is an `AssertionError`; a platform value that is not
one of the recognized member name strings is a `KeyError` (a non-string value
is never a member name); otherwise a fresh setting is built for the decoded
platform and the remaining keys are folded in, unknown keys becoming
warnings. Returns the final field dictionary together with the warned keys. -/
def UUFQSetting.from_file (loaded : List (String × JsonValue)) :
    Except PPQError (List (String × JsonValue) × List String) :=
  match alFind loaded "platform" with
  | none => Except.error (PPQError.assertionError
      "json document must contain a platform key")
  | some v =>
    match v with
    | JsonValue.jstr s =>
      match TargetPlatform.members.find?
          (fun p => TargetPlatform.memberName p == s) with
      | some p => Except.ok (applyLoaded (uufqsInitDict p) [] loaded)
      | none => Except.error (PPQError.keyError
          "can not parse platform from json document")
    | _ => Except.error (PPQError.keyError
        "can not parse platform from json document")

theorem alFind_alSet {α : Type} (l : List (String × α)) (k n : String) (v : α) :
    alFind (alSet l k v) n = if k = n then some v else alFind l n := by
  induction l with
  | nil => simp [alFind, alSet]
  | cons hd t ih =>
    obtain ⟨k0, v0⟩ := hd
    simp only [alSet]
    by_cases h1 : k0 = k
    · subst h1
      by_cases h2 : k0 = n <;> simp [alFind, h2]
    · simp only [if_neg h1, alFind, ih]
      by_cases h2 : k0 = n
      · subst h2
        have hk : ¬ k = k0 := fun h => h1 h.symm
        simp [hk]
      · simp [h2]

theorem alHasKey_mem {α : Type} (l : List (String × α)) (n : String) :
    alHasKey l n = true ↔ n ∈ l.map Prod.fst := by
  induction l with
  | nil => simp [alHasKey, alFind]
  | cons hd t ih =>
    obtain ⟨k0, v0⟩ := hd
    by_cases h : k0 = n
    · simp [alHasKey, alFind, h]
    · simp only [alHasKey, alFind, if_neg h, List.map_cons, List.mem_cons]
      rw [show (alFind t n).isSome = alHasKey t n from rfl, ih]
      tauto

theorem alFind_isSome_mem {α : Type} (l : List (String × α)) (n : String)
    (h : (alFind l n).isSome = true) : n ∈ l.map Prod.fst := by
  exact (alHasKey_mem l n).1 h

theorem alSet_keys_of_mem {α : Type} (l : List (String × α)) (k : String)
    (v : α) (h : alHasKey l k = true) :
    (alSet l k v).map Prod.fst = l.map Prod.fst := by
  induction l with
  | nil => simp [alHasKey, alFind] at h
  | cons hd t ih =>
    obtain ⟨k0, v0⟩ := hd
    simp only [alSet]
    by_cases h1 : k0 = k
    · subst h1; simp
    · simp only [if_neg h1, List.map_cons]
      have h2 : alHasKey t k = true := by
        simpa [alHasKey, alFind, h1] using h
      rw [ih h2]

theorem alSet_keys_of_not_mem {α : Type} (l : List (String × α)) (k : String)
    (v : α) (h : alHasKey l k = false) :
    (alSet l k v).map Prod.fst = l.map Prod.fst ++ [k] := by
  induction l with
  | nil => simp [alSet]
  | cons hd t ih =>
    obtain ⟨k0, v0⟩ := hd
    simp only [alSet]
    by_cases h1 : k0 = k
    · subst h1; simp [alHasKey, alFind] at h
    · simp only [if_neg h1, List.map_cons, List.cons_append,
        List.cons.injEq, true_and]
      have h2 : alHasKey t k = false := by
        simpa [alHasKey, alFind, h1] using h
      exact ih h2

theorem applyOverrides_nil (g : BaseGraph) (t : List (String × TargetPlatform)) :
    applyOverrides g t [] = Except.ok t := rfl

theorem applyOverrides_cons_skip (g : BaseGraph)
    (t : List (String × TargetPlatform)) (opname : String) (v : OverrideValue)
    (rest : List (String × OverrideValue)) (h : g.hasOp opname = false) :
    applyOverrides g t ((opname, v) :: rest) = applyOverrides g t rest := by
  simp [applyOverrides, h]

theorem applyOverrides_cons_int_ok (g : BaseGraph)
    (t : List (String × TargetPlatform)) (opname : String) (n : Int)
    (rest : List (String × OverrideValue)) (p : TargetPlatform)
    (h : g.hasOp opname = true) (hd : TargetPlatform.decode n = some p) :
    applyOverrides g t ((opname, OverrideValue.intVal n) :: rest)
      = applyOverrides g (alSet t opname p) rest := by
  simp [applyOverrides, h, hd]

theorem applyOverrides_cons_int_bad (g : BaseGraph)
    (t : List (String × TargetPlatform)) (opname : String) (n : Int)
    (rest : List (String × OverrideValue))
    (h : g.hasOp opname = true) (hd : TargetPlatform.decode n = none) :
    applyOverrides g t ((opname, OverrideValue.intVal n) :: rest)
      = Except.error (PPQError.valueError
          "invalid platform code in dispatching table") := by
  simp [applyOverrides, h, hd]

theorem applyOverrides_cons_str (g : BaseGraph)
    (t : List (String × TargetPlatform)) (opname : String) (s : String)
    (rest : List (String × OverrideValue)) (h : g.hasOp opname = true) :
    applyOverrides g t ((opname, OverrideValue.strVal s) :: rest)
      = Except.error (PPQError.assertionError
          "dispatching table platform setting is expected given as int") := by
  simp [applyOverrides, h]

theorem alSet_keys_nodup {α : Type} (l : List (String × α)) (k : String)
    (v : α) (h : (l.map Prod.fst).Nodup) :
    ((alSet l k v).map Prod.fst).Nodup := by
  by_cases hm : alHasKey l k = true
  · rw [alSet_keys_of_mem l k v hm]; exact h
  · rw [alSet_keys_of_not_mem l k v (by simpa using hm)]
    rw [List.nodup_append]
    refine ⟨h, List.nodup_singleton k, ?h⟩
    intro a ha hb
    rw [List.mem_singleton] at hb
    subst hb
    exact hm ((alHasKey_mem l a).2 ha)


theorem applyOverrides_keys_nodup (g : BaseGraph) :
    ∀ (ovs : List (String × OverrideValue)) (t t' : List (String × TargetPlatform)),
      (t.map Prod.fst).Nodup → applyOverrides g t ovs = Except.ok t' →
      (t'.map Prod.fst).Nodup := by
  intro ovs
  induction ovs with
  | nil =>
    intro t t' h he
    rw [applyOverrides_nil] at he
    obtain rfl : t = t' := by simpa using he
    exact h
  | cons hd rest ih =>
    intro t t' h he
    obtain ⟨opname, v⟩ := hd
    by_cases hg : g.hasOp opname = false
    · rw [applyOverrides_cons_skip _ _ _ _ _ hg] at he
      exact ih t t' h he
    · have hg1 : g.hasOp opname = true := by simpa using hg
      cases v with
      | intVal n =>
        cases hdn : TargetPlatform.decode n with
        | some p =>
          rw [applyOverrides_cons_int_ok _ _ _ _ _ _ hg1 hdn] at he
          exact ih _ t' (alSet_keys_nodup t opname p h) he
        | none =>
          rw [applyOverrides_cons_int_bad _ _ _ _ _ hg1 hdn] at he
          simp at he
      | strVal s =>
        rw [applyOverrides_cons_str _ _ _ _ _ hg1] at he
        simp at he

theorem applyOverrides_unkeyed (g : BaseGraph) (n : String) :
    ∀ (ovs : List (String × OverrideValue)), n ∉ ovs.map Prod.fst →
    ∀ (t t' : List (String × TargetPlatform)),
      applyOverrides g t ovs = Except.ok t' → alFind t' n = alFind t n := by
  intro ovs
  induction ovs with
  | nil =>
    intro _ t t' he
    rw [applyOverrides_nil] at he
    obtain rfl : t = t' := by simpa using he
    rfl
  | cons hd rest ih =>
    intro hn t t' he
    obtain ⟨k, v⟩ := hd
    have hkn : ¬ k = n := by
      intro h
      exact hn (by simp [h])
    have hn2 : n ∉ rest.map Prod.fst := by
      intro h
      exact hn (by simp [h])
    by_cases hg : g.hasOp k = false
    · rw [applyOverrides_cons_skip _ _ _ _ _ hg] at he
      exact ih hn2 t t' he
    · have hg1 : g.hasOp k = true := by simpa using hg
      cases v with
      | intVal m =>
        cases hdm : TargetPlatform.decode m with
        | some q =>
          rw [applyOverrides_cons_int_ok _ _ _ _ _ _ hg1 hdm] at he
          rw [ih hn2 _ t' he, alFind_alSet, if_neg hkn]
        | none =>
          rw [applyOverrides_cons_int_bad _ _ _ _ _ hg1 hdm] at he
          simp at he
      | strVal s =>
        rw [applyOverrides_cons_str _ _ _ _ _ hg1] at he
        simp at he

theorem applyOverrides_wins (g : BaseGraph) (opname : String) (c : Int)
    (p : TargetPlatform) (hdec : TargetPlatform.decode c = some p)
    (hop : g.hasOp opname = true) :
    ∀ (ovs : List (String × OverrideValue)), (ovs.map Prod.fst).Nodup →
      (opname, OverrideValue.intVal c) ∈ ovs →
    ∀ (t t' : List (String × TargetPlatform)),
      applyOverrides g t ovs = Except.ok t' → alFind t' opname = some p := by
  intro ovs
  induction ovs with
  | nil => intro _ hmem; simp at hmem
  | cons hd rest ih =>
    intro hnd hmem t t' he
    obtain ⟨k, v⟩ := hd
    have hnd2 : (rest.map Prod.fst).Nodup :=
      (List.nodup_cons.1 (by simpa using hnd)).2
    rcases List.mem_cons.1 hmem with heq | hmem2
    · cases heq
      rw [applyOverrides_cons_int_ok _ _ _ _ _ _ hop hdec] at he
      have hnotin : opname ∉ rest.map Prod.fst :=
        (List.nodup_cons.1 (by simpa using hnd)).1
      rw [applyOverrides_unkeyed g opname rest hnotin _ t' he, alFind_alSet,
        if_pos rfl]
    · by_cases hg : g.hasOp k = false
      · rw [applyOverrides_cons_skip _ _ _ _ _ hg] at he
        exact ih hnd2 hmem2 t t' he
      · have hg1 : g.hasOp k = true := by simpa using hg
        cases v with
        | intVal m =>
          cases hdm : TargetPlatform.decode m with
          | some q =>
            rw [applyOverrides_cons_int_ok _ _ _ _ _ _ hg1 hdm] at he
            exact ih hnd2 hmem2 _ t' he
          | none =>
            rw [applyOverrides_cons_int_bad _ _ _ _ _ hg1 hdm] at he
            simp at he
        | strVal s =>
          rw [applyOverrides_cons_str _ _ _ _ _ hg1] at he
          simp at he

theorem applyOverrides_invalid (g : BaseGraph) (opname : String) (c : Int)
    (hdec : TargetPlatform.decode c = none) (hop : g.hasOp opname = true) :
    ∀ (ovs : List (String × OverrideValue)),
      (opname, OverrideValue.intVal c) ∈ ovs →
    ∀ (t : List (String × TargetPlatform)),
      ∃ e, applyOverrides g t ovs = Except.error e := by
  intro ovs
  induction ovs with
  | nil => intro hmem; simp at hmem
  | cons hd rest ih =>
    intro hmem t
    obtain ⟨k, v⟩ := hd
    rcases List.mem_cons.1 hmem with heq | hmem2
    · cases heq
      exact ⟨_, applyOverrides_cons_int_bad _ _ _ _ _ hop hdec⟩
    · by_cases hg : g.hasOp k = false
      · rw [applyOverrides_cons_skip _ _ _ _ _ hg]
        exact ih hmem2 t
      · have hg1 : g.hasOp k = true := by simpa using hg
        cases v with
        | intVal m =>
          cases hdm : TargetPlatform.decode m with
          | some q =>
            rw [applyOverrides_cons_int_ok _ _ _ _ _ _ hg1 hdm]
            exact ih hmem2 _
          | none =>
            exact ⟨_, applyOverrides_cons_int_bad _ _ _ _ _ hg1 hdm⟩
        | strVal s =>
          exact ⟨_, applyOverrides_cons_str _ _ _ _ _ hg1⟩

theorem applyOverrides_stale (g : BaseGraph) (opname : String)
    (v : OverrideValue) (hop : g.hasOp opname = false) :
    ∀ (l1 l2 : List (String × OverrideValue))
      (t : List (String × TargetPlatform)),
      applyOverrides g t (l1 ++ (opname, v) :: l2)
        = applyOverrides g t (l1 ++ l2) := by
  intro l1
  induction l1 with
  | nil =>
    intro l2 t
    simpa using applyOverrides_cons_skip g t opname v l2 hop
  | cons hd rest ih =>
    intro l2 t
    obtain ⟨k, w⟩ := hd
    by_cases hg : g.hasOp k = false
    · simp only [List.cons_append]
      rw [applyOverrides_cons_skip _ _ _ _ _ hg,
        applyOverrides_cons_skip _ _ _ _ _ hg]
      exact ih l2 t
    · have hg1 : g.hasOp k = true := by simpa using hg
      cases w with
      | intVal m =>
        cases hdm : TargetPlatform.decode m with
        | some q =>
          simp only [List.cons_append]
          rw [applyOverrides_cons_int_ok _ _ _ _ _ _ hg1 hdm,
            applyOverrides_cons_int_ok _ _ _ _ _ _ hg1 hdm]
          exact ih l2 _
        | none =>
          simp only [List.cons_append]
          rw [applyOverrides_cons_int_bad _ _ _ _ _ hg1 hdm,
            applyOverrides_cons_int_bad _ _ _ _ _ hg1 hdm]
      | strVal s =>
        simp only [List.cons_append]
        rw [applyOverrides_cons_str _ _ _ _ _ hg1,
          applyOverrides_cons_str _ _ _ _ _ hg1]

theorem commitLoop_ok_names (t : List (String × TargetPlatform)) :
    ∀ ops : List Operation, (commitLoop t ops).2 = none →
      (commitLoop t ops).1.map Operation.name = ops.map Operation.name := by
  intro ops
  induction ops with
  | nil => intro _; rfl
  | cons op rest ih =>
    intro h
    cases hf : alFind t op.name with
    | some p =>
      simp only [commitLoop, hf] at h ⊢
      simp [ih h]
    | none => simp [commitLoop, hf] at h

theorem commitLoop_ok_platform (t : List (String × TargetPlatform)) :
    ∀ ops : List Operation, (commitLoop t ops).2 = none →
      ∀ op2 ∈ (commitLoop t ops).1, alFind t op2.name = some op2.platform := by
  intro ops
  induction ops with
  | nil => intro _ op2 hm; simp [commitLoop] at hm
  | cons op rest ih =>
    intro h op2 hm
    cases hf : alFind t op.name with
    | some p =>
      simp only [commitLoop, hf] at h hm
      rcases List.mem_cons.1 hm with heq | hm2
      · subst heq
        simpa using hf
      · exact ih h op2 hm2
    | none => simp [commitLoop, hf] at h

theorem commitLoop_ok_covered (t : List (String × TargetPlatform)) :
    ∀ ops : List Operation, (commitLoop t ops).2 = none →
      ∀ op ∈ ops, (alFind t op.name).isSome = true := by
  intro ops
  induction ops with
  | nil => intro _ op hm; simp at hm
  | cons op0 rest ih =>
    intro h op hm
    cases hf : alFind t op0.name with
    | some p =>
      simp only [commitLoop, hf] at h
      rcases List.mem_cons.1 hm with heq | hm2
      · subst heq; simp [hf]
      · exact ih h op hm2
    | none => simp [commitLoop, hf] at h

theorem commitLoop_missing (t : List (String × TargetPlatform)) :
    ∀ ops : List Operation, (∃ op ∈ ops, alFind t op.name = none) →
      (commitLoop t ops).2.isSome = true := by
  intro ops
  induction ops with
  | nil => intro h; simp at h
  | cons op0 rest ih =>
    intro h
    obtain ⟨op, hm, hfo⟩ := h
    cases hf : alFind t op0.name with
    | some p =>
      simp only [commitLoop, hf]
      rcases List.mem_cons.1 hm with heq | hm2
      · subst heq; rw [hf] at hfo; simp at hfo
      · exact ih ⟨op, hm2, hfo⟩
    | none => simp [commitLoop, hf]

theorem dispatch_graph_ok_inv (autoTable : List (String × TargetPlatform))
    (graph : BaseGraph) (platform : TargetPlatform)
    (s : QuantizationSetting) (g2 : BaseGraph)
    (t : List (String × TargetPlatform))
    (h : dispatch_graph autoTable graph platform s = (g2, Except.ok t)) :
    applyOverrides graph autoTable s.dispatching_table = Except.ok t ∧
    (commitLoop t graph.operations).2 = none ∧
    g2.operations = (commitLoop t graph.operations).1 := by
  unfold dispatch_graph at h
  by_cases h1 : quantizerPlatforms.contains platform = false
  · rw [if_pos h1] at h
    simp at h
  · rw [if_neg h1] at h
    by_cases h2 : dispatcherNames.contains (strLower s.dispatcher) = false
    · rw [if_pos h2] at h
      simp at h
    · rw [if_neg h2] at h
      cases hap : applyOverrides graph autoTable s.dispatching_table with
      | error e =>
        rw [hap] at h
        simp at h
      | ok t0 =>
        rw [hap] at h
        dsimp only at h
        cases hcl : commitLoop t0 graph.operations with
        | mk ops oe =>
          rw [hcl] at h
          cases oe with
          | some e => simp at h
          | none =>
            simp only [insertSwitchers, Prod.mk.injEq] at h
            obtain ⟨hg, ht⟩ := h
            obtain rfl : t0 = t := by simpa using ht
            refine ⟨rfl, ?h1, ?h2⟩
            · rw [hcl]
            · rw [← hg, hcl]

/-- C6: `format_graph` applies the normalization rewrites as one fixed
ordered sequence — constant-to-parameter conversion first, then batch-norm
fusion, then parameter de-duplication, then cast, slice and clip
canonicalization, and isolated-node removal last — and issues each rewrite
command exactly once per call, whatever the external formatter does. -/
theorem format_graph_fixed_pass_order :
    format_graph_commands =
      [GraphCommandType.FORMAT_CONSTANT_INPUT, GraphCommandType.FUSE_BN,
       GraphCommandType.FORMAT_PARAMETERS, GraphCommandType.FORMAT_CAST,
       GraphCommandType.FORMAT_SLICE, GraphCommandType.FORMAT_CLIP,
       GraphCommandType.DELETE_ISOLATED] ∧
    (∀ c : GraphCommandType, c ∈ format_graph_commands →
      format_graph_commands.count c = 1) ∧
    ∀ (exec : GraphCommandType → BaseGraph → BaseGraph) (g : BaseGraph),
      format_graph exec g =
        exec GraphCommandType.DELETE_ISOLATED
          (exec GraphCommandType.FORMAT_CLIP
            (exec GraphCommandType.FORMAT_SLICE
              (exec GraphCommandType.FORMAT_CAST
                (exec GraphCommandType.FORMAT_PARAMETERS
                  (exec GraphCommandType.FUSE_BN
                    (exec GraphCommandType.FORMAT_CONSTANT_INPUT g)))))) := by
  refine ⟨rfl, ?h1, ?h2⟩
  · intro c hc
    cases c <;> revert hc <;> decide
  · intro exec g
    rfl

/-- Witness for C6 at a concrete command: the batch-norm fusion pass is
issued exactly once. -/
theorem format_graph_fixed_pass_order_witness :
    format_graph_commands.count GraphCommandType.FUSE_BN = 1 :=
  format_graph_fixed_pass_order.2.1 GraphCommandType.FUSE_BN (by decide)

/-- C10: supplying `non_quantable_op` or `interested_outputs` to the
user-facing setting constructor as a single string coerces it into a
one-element list of names. -/
theorem init_coerces_string_to_singleton (platform : TargetPlatform)
    (fs : Int) (lr : Rat) (cal : String) (eq : Bool) (s s2 : String)
    (other : PyStrOrList) :
    (UUFQSetting.init platform fs lr other cal eq
        (PyStrOrList.pstr s)).non_quantable_op = some [s] ∧
    (UUFQSetting.init platform fs lr (PyStrOrList.pstr s2) cal eq
        other).interested_outputs = some [s2] :=
  ⟨rfl, rfl⟩

/-- C4: an override entry keyed by an operation name absent from the graph is
silently skipped: `dispatch_graph` returns exactly the same result with the
stale entry as without it, so it raises nothing because of the entry and the
dispatching table is unchanged for all existing operations. -/
theorem stale_override_noop (autoTable : List (String × TargetPlatform))
    (graph : BaseGraph) (platform : TargetPlatform)
    (s : QuantizationSetting) (l1 l2 : List (String × OverrideValue))
    (opname : String) (v : OverrideValue)
    (h : graph.hasOp opname = false) :
    dispatch_graph autoTable graph platform
        { s with dispatching_table := l1 ++ (opname, v) :: l2 }
      = dispatch_graph autoTable graph platform
        { s with dispatching_table := l1 ++ l2 } := by
  unfold dispatch_graph
  rw [applyOverrides_stale graph opname v h l1 l2 autoTable]

/-- Witness for C4: a stale override on a one-operation graph is a no-op. -/
theorem stale_override_noop_witness :
    ((BaseGraph.mk [Operation.mk "conv_1" "Conv"
        TargetPlatform.UNSPECIFIED]).hasOp "conv_99" = false) ∧
    dispatch_graph [("conv_1", TargetPlatform.UNSPECIFIED)]
        (BaseGraph.mk [Operation.mk "conv_1" "Conv" TargetPlatform.UNSPECIFIED])
        TargetPlatform.PPL_DSP_INT8
        { default_setting with dispatching_table :=
            [] ++ ("conv_99", OverrideValue.intVal 7) :: [] }
      = dispatch_graph [("conv_1", TargetPlatform.UNSPECIFIED)]
        (BaseGraph.mk [Operation.mk "conv_1" "Conv" TargetPlatform.UNSPECIFIED])
        TargetPlatform.PPL_DSP_INT8
        { default_setting with dispatching_table := [] ++ [] } :=
  ⟨by decide, stale_override_noop _ _ _ _ [] [] "conv_99"
    (OverrideValue.intVal 7) (by decide)⟩

/-- C3: an override entry whose platform code does not decode to a valid
platform member, for an operation present in the graph, makes
`dispatch_graph` raise, and the graph state it leaves behind is the input
graph itself: no operation's platform field is mutated by the failed call
(the override loop runs before the platform-commit loop). -/
theorem invalid_override_fatal (autoTable : List (String × TargetPlatform))
    (graph : BaseGraph) (platform : TargetPlatform) (s : QuantizationSetting)
    (opname : String) (c : Int)
    (hmem : (opname, OverrideValue.intVal c) ∈ s.dispatching_table)
    (hdec : TargetPlatform.decode c = none)
    (hop : graph.hasOp opname = true) :
    ∃ e, dispatch_graph autoTable graph platform s
      = (graph, Except.error e) := by
  unfold dispatch_graph
  by_cases h1 : quantizerPlatforms.contains platform = false
  · exact ⟨_, by rw [if_pos h1]⟩
  · by_cases h2 : dispatcherNames.contains (strLower s.dispatcher) = false
    · exact ⟨_, by rw [if_neg h1, if_pos h2]⟩
    · obtain ⟨e, he⟩ := applyOverrides_invalid graph opname c hdec hop
        s.dispatching_table hmem autoTable
      exact ⟨e, by rw [if_neg h1, if_neg h2, he]⟩

/-- Witness for C3: the spec's Scenario D, override code 999 on an existing
operation. -/
theorem invalid_override_fatal_witness :
    (("conv_1", OverrideValue.intVal 999) ∈
      ({ default_setting with dispatching_table :=
          [("conv_1", OverrideValue.intVal 999)] } :
        QuantizationSetting).dispatching_table) ∧
    TargetPlatform.decode 999 = none ∧
    ((BaseGraph.mk [Operation.mk "conv_1" "Conv"
        TargetPlatform.UNSPECIFIED]).hasOp "conv_1" = true) ∧
    ∃ e, dispatch_graph [("conv_1", TargetPlatform.UNSPECIFIED)]
        (BaseGraph.mk [Operation.mk "conv_1" "Conv" TargetPlatform.UNSPECIFIED])
        TargetPlatform.PPL_DSP_INT8
        { default_setting with dispatching_table :=
            [("conv_1", OverrideValue.intVal 999)] }
      = (BaseGraph.mk [Operation.mk "conv_1" "Conv" TargetPlatform.UNSPECIFIED],
         Except.error e) :=
  ⟨by decide, by decide, by decide,
   invalid_override_fatal _ _ _ _ "conv_1" 999 (by decide) (by decide)
     (by decide)⟩

/-- C1: override precedence — for an override entry whose operation name is
present in the graph and whose platform code decodes to a valid platform,
after a successful `dispatch_graph` the platform committed for that operation
equals the override's platform (never the automatic dispatcher's proposal,
which enters as `autoTable`). -/
theorem override_precedence (autoTable : List (String × TargetPlatform))
    (graph : BaseGraph) (platform : TargetPlatform) (s : QuantizationSetting)
    (opname : String) (c : Int) (p : TargetPlatform)
    (g2 : BaseGraph) (t : List (String × TargetPlatform))
    (hnd : (s.dispatching_table.map Prod.fst).Nodup)
    (hmem : (opname, OverrideValue.intVal c) ∈ s.dispatching_table)
    (hdec : TargetPlatform.decode c = some p)
    (hop : graph.hasOp opname = true)
    (hok : dispatch_graph autoTable graph platform s = (g2, Except.ok t)) :
    alFind t opname = some p ∧
    ∀ op ∈ g2.operations, op.name = opname → op.platform = p := by
  obtain ⟨hap, hcn, hgo⟩ :=
    dispatch_graph_ok_inv autoTable graph platform s g2 t hok
  have hfind : alFind t opname = some p :=
    applyOverrides_wins graph opname c p hdec hop s.dispatching_table hnd
      hmem autoTable t hap
  refine ⟨hfind, ?h⟩
  intro op hm hname
  have hco := commitLoop_ok_platform t graph.operations hcn op (hgo ▸ hm)
  rw [hname, hfind] at hco
  exact (Option.some_inj.mp hco).symm

/-- Witness for C1: the spec's Scenario B, override code 7 (fp32) on an
existing operation the automatic dispatcher proposed as UNSPECIFIED. -/
theorem override_precedence_witness :
    alFind [("conv_1", TargetPlatform.FP32)] "conv_1"
        = some TargetPlatform.FP32 ∧
    ∀ op ∈ (BaseGraph.mk [Operation.mk "conv_1" "Conv"
        TargetPlatform.FP32]).operations,
      op.name = "conv_1" → op.platform = TargetPlatform.FP32 :=
  override_precedence [("conv_1", TargetPlatform.UNSPECIFIED)]
    (BaseGraph.mk [Operation.mk "conv_1" "Conv" TargetPlatform.UNSPECIFIED])
    TargetPlatform.PPL_DSP_INT8
    { default_setting with dispatching_table :=
        [("conv_1", OverrideValue.intVal 7)] }
    "conv_1" 7 TargetPlatform.FP32
    (BaseGraph.mk [Operation.mk "conv_1" "Conv" TargetPlatform.FP32])
    [("conv_1", TargetPlatform.FP32)]
    (by decide) (by decide) (by decide) (by decide) (by decide)

/-- C2: after a successful `dispatch_graph` whose automatic proposal has
unique keys, the final dispatching table holds exactly one entry for every
operation of the graph, the surviving operations are the graph's operations
with the platform field set from that final table, and a table missing some
operation makes the commit loop stop with the fatal internal-consistency
assertion instead. -/
theorem dispatch_table_coverage (autoTable : List (String × TargetPlatform))
    (graph : BaseGraph) (platform : TargetPlatform) (s : QuantizationSetting)
    (g2 : BaseGraph) (t : List (String × TargetPlatform))
    (hnd : (autoTable.map Prod.fst).Nodup)
    (hok : dispatch_graph autoTable graph platform s = (g2, Except.ok t)) :
    (∀ op ∈ graph.operations, (t.map Prod.fst).count op.name = 1) ∧
    g2.operations.map Operation.name = graph.operations.map Operation.name ∧
    (∀ op ∈ g2.operations, alFind t op.name = some op.platform) ∧
    (∀ t2 : List (String × TargetPlatform),
      (∃ op ∈ graph.operations, alFind t2 op.name = none) →
      (commitLoop t2 graph.operations).2.isSome = true) := by
  obtain ⟨hap, hcn, hgo⟩ :=
    dispatch_graph_ok_inv autoTable graph platform s g2 t hok
  have htnd : (t.map Prod.fst).Nodup :=
    applyOverrides_keys_nodup graph s.dispatching_table autoTable t hnd hap
  refine ⟨?h1, ?h2, ?h3, ?h4⟩
  · intro op hm
    have hsome := commitLoop_ok_covered t graph.operations hcn op hm
    exact List.count_eq_one_of_mem htnd (alFind_isSome_mem t op.name hsome)
  · rw [hgo]
    exact commitLoop_ok_names t graph.operations hcn
  · intro op hm
    exact commitLoop_ok_platform t graph.operations hcn op (hgo ▸ hm)
  · intro t2 h
    exact commitLoop_missing t2 graph.operations h

/-- Witness for C2 on a two-operation graph with an override on one of them. -/
theorem dispatch_table_coverage_witness :
    (∀ op ∈ (BaseGraph.mk [Operation.mk "conv_1" "Conv"
          TargetPlatform.UNSPECIFIED,
        Operation.mk "relu_1" "Relu" TargetPlatform.UNSPECIFIED]).operations,
      (([("conv_1", TargetPlatform.FP32), ("relu_1", TargetPlatform.UNSPECIFIED)]
          : List (String × TargetPlatform)).map Prod.fst).count op.name = 1) ∧
    (BaseGraph.mk [Operation.mk "conv_1" "Conv" TargetPlatform.FP32,
        Operation.mk "relu_1" "Relu"
          TargetPlatform.UNSPECIFIED]).operations.map Operation.name
      = (BaseGraph.mk [Operation.mk "conv_1" "Conv" TargetPlatform.UNSPECIFIED,
          Operation.mk "relu_1" "Relu"
            TargetPlatform.UNSPECIFIED]).operations.map Operation.name ∧
    (∀ op ∈ (BaseGraph.mk [Operation.mk "conv_1" "Conv" TargetPlatform.FP32,
        Operation.mk "relu_1" "Relu" TargetPlatform.UNSPECIFIED]).operations,
      alFind [("conv_1", TargetPlatform.FP32),
          ("relu_1", TargetPlatform.UNSPECIFIED)] op.name
        = some op.platform) ∧
    (∀ t2 : List (String × TargetPlatform),
      (∃ op ∈ (BaseGraph.mk [Operation.mk "conv_1" "Conv"
            TargetPlatform.UNSPECIFIED,
          Operation.mk "relu_1" "Relu" TargetPlatform.UNSPECIFIED]).operations,
        alFind t2 op.name = none) →
      (commitLoop t2 (BaseGraph.mk [Operation.mk "conv_1" "Conv"
            TargetPlatform.UNSPECIFIED,
          Operation.mk "relu_1" "Relu"
            TargetPlatform.UNSPECIFIED]).operations).2.isSome = true) :=
  dispatch_table_coverage
    [("conv_1", TargetPlatform.UNSPECIFIED),
     ("relu_1", TargetPlatform.UNSPECIFIED)]
    (BaseGraph.mk [Operation.mk "conv_1" "Conv" TargetPlatform.UNSPECIFIED,
      Operation.mk "relu_1" "Relu" TargetPlatform.UNSPECIFIED])
    TargetPlatform.PPL_DSP_INT8
    { default_setting with dispatching_table :=
        [("conv_1", OverrideValue.intVal 7)] }
    (BaseGraph.mk [Operation.mk "conv_1" "Conv" TargetPlatform.FP32,
      Operation.mk "relu_1" "Relu" TargetPlatform.UNSPECIFIED])
    [("conv_1", TargetPlatform.FP32), ("relu_1", TargetPlatform.UNSPECIFIED)]
    (by decide) (by decide)

/-- C7: a target platform that is not quantizable or has no registered
quantizer makes `quantize_onnx_model` raise without the graph loader ever
being evaluated (so before any graph is loaded or mutated), and inside
`dispatch_graph` a platform without a quantizer or an unrecognized dispatcher
kind produces the error together with the input graph unchanged — no
operation's platform field is mutated. -/
theorem config_error_fatal (autoTable : List (String × TargetPlatform))
    (graph : BaseGraph) (platform : TargetPlatform) (s : QuantizationSetting)
    (execFmt : GraphCommandType → BaseGraph → BaseGraph)
    (cd : Option Unit) (cs : Option Int) (so : Option QuantizationSetting)
    (dq : Bool) :
    (TargetPlatform.is_quantized_platform platform = false ∨
        quantizerPlatforms.contains platform = false →
      ∃ e, ∀ loadGraph : Unit → BaseGraph,
        quantize_onnx_model execFmt loadGraph autoTable cd cs so platform dq
          = Except.error e) ∧
    (quantizerPlatforms.contains platform = false ∨
        dispatcherNames.contains (strLower s.dispatcher) = false →
      ∃ e, dispatch_graph autoTable graph platform s
          = (graph, Except.error e)) := by
  constructor
  · intro h
    have hq : TargetPlatform.is_quantized_platform platform = false := by
      rcases h with h | h
      · exact h
      · exact h
    exact ⟨_, fun loadGraph => by
      unfold quantize_onnx_model
      rw [if_pos hq]⟩
  · intro h
    by_cases h1 : quantizerPlatforms.contains platform = false
    · exact ⟨_, by unfold dispatch_graph; rw [if_pos h1]⟩
    · have h2 : dispatcherNames.contains (strLower s.dispatcher) = false := by
        rcases h with h | h
        · exact absurd h h1
        · exact h
      exact ⟨_, by unfold dispatch_graph; rw [if_neg h1, if_pos h2]⟩

/-- Witness for C7: the FP32 platform is not quantizable, and an unknown
dispatcher kind is rejected by dispatch_graph with the graph unchanged. -/
theorem config_error_fatal_witness :
    (∃ e, ∀ loadGraph : Unit → BaseGraph,
      quantize_onnx_model (fun _ g => g) loadGraph [] (some ()) (some 32)
          none TargetPlatform.FP32 true = Except.error e) ∧
    (∃ e, dispatch_graph [] (BaseGraph.mk [Operation.mk "conv_1" "Conv"
          TargetPlatform.UNSPECIFIED]) TargetPlatform.PPL_DSP_INT8
        { default_setting with dispatcher := "bogus" }
      = (BaseGraph.mk [Operation.mk "conv_1" "Conv"
          TargetPlatform.UNSPECIFIED], Except.error e)) :=
  ⟨(config_error_fatal [] (BaseGraph.mk []) TargetPlatform.FP32
      default_setting (fun _ g => g) (some ()) (some 32) none true).1
      (Or.inl (by decide)),
   (config_error_fatal [] (BaseGraph.mk [Operation.mk "conv_1" "Conv"
        TargetPlatform.UNSPECIFIED]) TargetPlatform.PPL_DSP_INT8
      { default_setting with dispatcher := "bogus" } (fun _ g => g)
      (some ()) (some 32) none true).2 (Or.inr (by decide))⟩

/-- C5 (amended): with quantization requested, a missing calibration
dataloader or a missing (None) calibration step count makes both
`quantize_onnx_model` and `quantize_caffe_model` raise the fatal TypeError
without the graph loader ever being evaluated — before any graph is loaded
and before any operation's platform field could be mutated. The source only
compares `calib_steps` against None; positivity of the step count is not
checked (see the counterexample theorem for the original claim). -/
theorem calib_precondition_fatal
    (execFmt : GraphCommandType → BaseGraph → BaseGraph)
    (autoTable : List (String × TargetPlatform)) (cd : Option Unit)
    (cs : Option Int) (so : Option QuantizationSetting)
    (platform : TargetPlatform) (h : cd = none ∨ cs = none) :
    ∃ e, (∀ loadGraph : Unit → BaseGraph,
        quantize_onnx_model execFmt loadGraph autoTable cd cs so platform true
          = Except.error e) ∧
      (∀ loadGraph : Unit → BaseGraph,
        quantize_caffe_model execFmt loadGraph autoTable cd cs so platform true
          = Except.error e) := by
  by_cases h1 : TargetPlatform.is_quantized_platform platform = false
  · refine ⟨PPQError.valueError "Target Platform is an non-quantable platform",
      fun l => ?ha, fun l => ?hb⟩
    case ha =>
      unfold quantize_onnx_model
      rw [if_pos h1]
    case hb =>
      unfold quantize_caffe_model
      rw [if_pos h1]
  · have h2 : ¬ quantizerPlatforms.contains platform = false := h1
    have hcond : (true && (cd.isNone || cs.isNone)) = true := by
      rcases h with rfl | rfl <;> simp
    refine ⟨PPQError.typeError
        "Quantization needs a valid calib_dataloader and calib_steps setting",
      fun l => ?ha2, fun l => ?hb2⟩
    case ha2 =>
      unfold quantize_onnx_model
      rw [if_neg h1, if_neg h2, if_pos hcond]
    case hb2 =>
      unfold quantize_caffe_model
      rw [if_neg h1, if_neg h2, if_pos hcond]

/-- Witness for C5 (amended): a missing dataloader on a valid quantizable
platform raises the TypeError for both entry points. -/
theorem calib_precondition_fatal_witness :
    ∃ e, (∀ loadGraph : Unit → BaseGraph,
        quantize_onnx_model (fun _ g => g) loadGraph [] none (some 32) none
          TargetPlatform.PPL_DSP_INT8 true = Except.error e) ∧
      (∀ loadGraph : Unit → BaseGraph,
        quantize_caffe_model (fun _ g => g) loadGraph [] none (some 32) none
          TargetPlatform.PPL_DSP_INT8 true = Except.error e) :=
  calib_precondition_fatal (fun _ g => g) [] none (some 32) none
    TargetPlatform.PPL_DSP_INT8 (Or.inl rfl)

/-- Counterexample to C5 as stated: `calib_steps = 0` is not a positive
count, the dataloader is present and quantization is requested, yet
`quantize_onnx_model` raises no error before loading the graph — it runs the
whole pipeline and returns the dispatched graph. The source (lines 242-244)
only rejects `calib_steps is None`, not non-positive step counts. -/
theorem calib_steps_zero_not_rejected :
    quantize_onnx_model (fun _ g => g) (fun _ => BaseGraph.mk [])
      [] (some ()) (some 0) none TargetPlatform.PPL_DSP_INT8 true
      = Except.ok (BaseGraph.mk []) := by decide

theorem foldl_append_entries (f : String → String × OverrideValue) :
    ∀ (names : List String) (t : List (String × OverrideValue)),
      names.foldl (fun acc n => acc ++ [f n]) t = t ++ names.map f := by
  intro names
  induction names with
  | nil => intro t; simp
  | cons n rest ih =>
    intro t
    simp only [List.foldl_cons, List.map_cons]
    rw [ih (t ++ [f n])]
    simp

/-- C8: each non-quantizable operation name supplied by the user becomes
exactly one dispatching-table override entry pinning that operation to the
FP32 platform code (the code decodes back to FP32), and `non_quantable_op`
influences nothing else in the produced internal setting — there is no other
exclusion mechanism. -/
theorem non_quantable_op_pins_fp32 (u : UUFQSetting) (names : List String)
    (h : u.non_quantable_op = some names) :
    (u.convert_to_daddy_setting).dispatching_table
      = names.map (fun n =>
          (n, OverrideValue.intVal (TargetPlatform.code TargetPlatform.FP32))) ∧
    TargetPlatform.decode (TargetPlatform.code TargetPlatform.FP32)
      = some TargetPlatform.FP32 ∧
    ∀ alt : Option (List String),
      { UUFQSetting.convert_to_daddy_setting
          { u with non_quantable_op := alt } with dispatching_table := [] }
        = { u.convert_to_daddy_setting with dispatching_table := [] } := by
  refine ⟨?h1, by decide, ?h2⟩
  · unfold UUFQSetting.convert_to_daddy_setting
    rw [h]
    split_ifs <;>
      simp [foldl_append_entries, default_setting]
  · intro alt
    unfold UUFQSetting.convert_to_daddy_setting
    rw [h]
    cases alt with
    | none =>
      split_ifs <;> rfl
    | some names2 =>
      split_ifs <;> rfl

/-- Witness for C8: one non-quantizable operation name becomes the single
fp32-pinning override entry. -/
theorem non_quantable_op_pins_fp32_witness :
    ((UUFQSetting.init TargetPlatform.TRT_INT8 5000 (3 / 10000)
        PyStrOrList.pnone "percentile" true
        (PyStrOrList.pstr "op1")).convert_to_daddy_setting).dispatching_table
      = ["op1"].map (fun n =>
          (n, OverrideValue.intVal (TargetPlatform.code TargetPlatform.FP32))) ∧
    TargetPlatform.decode (TargetPlatform.code TargetPlatform.FP32)
      = some TargetPlatform.FP32 ∧
    ∀ alt : Option (List String),
      { UUFQSetting.convert_to_daddy_setting
          { UUFQSetting.init TargetPlatform.TRT_INT8 5000 (3 / 10000)
              PyStrOrList.pnone "percentile" true (PyStrOrList.pstr "op1") with
            non_quantable_op := alt } with dispatching_table := [] }
        = { (UUFQSetting.init TargetPlatform.TRT_INT8 5000 (3 / 10000)
              PyStrOrList.pnone "percentile" true
              (PyStrOrList.pstr "op1")).convert_to_daddy_setting with
            dispatching_table := [] } :=
  non_quantable_op_pins_fp32 _ ["op1"] rfl

theorem alHasKey_eq_decide {α : Type} (l : List (String × α)) (n : String) :
    alHasKey l n = decide (n ∈ l.map Prod.fst) := by
  by_cases h : n ∈ l.map Prod.fst
  · rw [(alHasKey_mem l n).2 h, decide_eq_true h]
  · rw [decide_eq_false h]
    cases hb : alHasKey l n with
    | false => rfl
    | true => exact absurd ((alHasKey_mem l n).1 hb) h

theorem alHasKey_alSet_of_mem {α : Type} (d : List (String × α))
    (k0 k : String) (v : α) (h : alHasKey d k0 = true) :
    alHasKey (alSet d k0 v) k = alHasKey d k := by
  rw [alHasKey_eq_decide, alHasKey_eq_decide, alSet_keys_of_mem d k0 v h]

theorem applyLoaded_nil (d : List (String × JsonValue)) (w : List String) :
    applyLoaded d w [] = (d, w) := rfl

theorem applyLoaded_cons (d : List (String × JsonValue)) (w : List String)
    (k : String) (v : JsonValue) (rest : List (String × JsonValue)) :
    applyLoaded d w ((k, v) :: rest) =
      if k = "platform" then applyLoaded d w rest
      else if alHasKey d k = true then applyLoaded (alSet d k v) w rest
      else applyLoaded d (w ++ [k]) rest := rfl

theorem applyLoaded_warns_mono (k : String) :
    ∀ (l : List (String × JsonValue)) (d : List (String × JsonValue))
      (w : List String), k ∈ w → k ∈ (applyLoaded d w l).2 := by
  intro l
  induction l with
  | nil => intro d w hk; exact hk
  | cons hd rest ih =>
    intro d w hk
    obtain ⟨k0, v0⟩ := hd
    rw [applyLoaded_cons]
    by_cases h1 : k0 = "platform"
    · rw [if_pos h1]; exact ih d w hk
    · rw [if_neg h1]
      by_cases h2 : alHasKey d k0 = true
      · rw [if_pos h2]; exact ih _ w hk
      · rw [if_neg h2]
        exact ih d _ (List.mem_append_left _ hk)

theorem applyLoaded_warns (k : String) (v : JsonValue) :
    ∀ (l : List (String × JsonValue)) (d : List (String × JsonValue))
      (w : List String), (k, v) ∈ l → ¬ k = "platform" →
      alHasKey d k = false → k ∈ (applyLoaded d w l).2 := by
  intro l
  induction l with
  | nil => intro d w hm; simp at hm
  | cons hd rest ih =>
    intro d w hm hne hk
    obtain ⟨k0, v0⟩ := hd
    rw [applyLoaded_cons]
    rcases List.mem_cons.1 hm with heq | hm2
    · cases heq
      rw [if_neg hne, if_neg (by simp [hk])]
      exact applyLoaded_warns_mono k rest d (w ++ [k])
        (List.mem_append_right _ (List.mem_singleton_self k))
    · by_cases h1 : k0 = "platform"
      · rw [if_pos h1]; exact ih d w hm2 hne hk
      · rw [if_neg h1]
        by_cases h2 : alHasKey d k0 = true
        · rw [if_pos h2]
          exact ih _ w hm2 hne
            (by rw [alHasKey_alSet_of_mem d k0 k v0 h2]; exact hk)
        · rw [if_neg h2]
          exact ih d _ hm2 hne hk

theorem applyLoaded_unkeyed (k : String) :
    ∀ (l : List (String × JsonValue)) (d : List (String × JsonValue))
      (w : List String), k ∉ l.map Prod.fst →
      alFind (applyLoaded d w l).1 k = alFind d k := by
  intro l
  induction l with
  | nil => intro d w _; rfl
  | cons hd rest ih =>
    intro d w hk
    obtain ⟨k0, v0⟩ := hd
    have hkne : ¬ k0 = k := by
      intro h
      exact hk (by simp [h])
    have hk2 : k ∉ rest.map Prod.fst := by
      intro h
      exact hk (by simp [h])
    rw [applyLoaded_cons]
    by_cases h1 : k0 = "platform"
    · rw [if_pos h1]; exact ih d w hk2
    · rw [if_neg h1]
      by_cases h2 : alHasKey d k0 = true
      · rw [if_pos h2, ih _ w hk2, alFind_alSet, if_neg hkne]
      · rw [if_neg h2]; exact ih d _ hk2

theorem applyLoaded_recognized (k : String) (v : JsonValue) :
    ∀ (l : List (String × JsonValue)) (d : List (String × JsonValue))
      (w : List String), (l.map Prod.fst).Nodup → (k, v) ∈ l →
      ¬ k = "platform" → alHasKey d k = true →
      alFind (applyLoaded d w l).1 k = some v := by
  intro l
  induction l with
  | nil => intro d w _ hm; simp at hm
  | cons hd rest ih =>
    intro d w hnd hm hne hk
    obtain ⟨k0, v0⟩ := hd
    have hnd2 : (rest.map Prod.fst).Nodup :=
      (List.nodup_cons.1 (by simpa using hnd)).2
    rw [applyLoaded_cons]
    rcases List.mem_cons.1 hm with heq | hm2
    · cases heq
      rw [if_neg hne, if_pos hk]
      have hnotin : k ∉ rest.map Prod.fst :=
        (List.nodup_cons.1 (by simpa using hnd)).1
      rw [applyLoaded_unkeyed k rest _ w hnotin, alFind_alSet, if_pos rfl]
    · by_cases h1 : k0 = "platform"
      · rw [if_pos h1]; exact ih d w hnd2 hm2 hne hk
      · rw [if_neg h1]
        by_cases h2 : alHasKey d k0 = true
        · rw [if_pos h2]
          exact ih _ w hnd2 hm2 hne
            (by rw [alHasKey_alSet_of_mem d k0 k v0 h2]; exact hk)
        · rw [if_neg h2]; exact ih d _ hnd2 hm2 hne hk

theorem uufqsInitDict_has_platform (p : TargetPlatform) :
    alHasKey (uufqsInitDict p) "platform" = true := rfl

theorem memberNames_find_none (s : String)
    (hs : s ∉ TargetPlatform.memberNames) :
    TargetPlatform.members.find?
      (fun q => TargetPlatform.memberName q == s) = none := by
  rw [List.find?_eq_none]
  intro q hq hbeq
  exact hs (eq_of_beq hbeq ▸ List.mem_map_of_mem TargetPlatform.memberName hq)

/-- C9: loading the user-facing settings document: a missing `platform` key
is fatal (the assertion), a platform value that is not a recognized member
name — including any non-string value — is fatal (KeyError); every other
unrecognized key only produces a warning while loading continues, and every
recognized key's loaded value is applied to the resulting field dictionary. -/
theorem from_file_platform_fatal_unknown_warn
    (loaded : List (String × JsonValue)) :
    (alFind loaded "platform" = none →
      ∃ msg, UUFQSetting.from_file loaded
        = Except.error (PPQError.assertionError msg)) ∧
    (∀ s, alFind loaded "platform" = some (JsonValue.jstr s) →
      s ∉ TargetPlatform.memberNames →
      ∃ msg, UUFQSetting.from_file loaded
        = Except.error (PPQError.keyError msg)) ∧
    (∀ v, alFind loaded "platform" = some v →
      (∀ s, ¬ v = JsonValue.jstr s) →
      ∃ msg, UUFQSetting.from_file loaded
        = Except.error (PPQError.keyError msg)) ∧
    (∀ s p, alFind loaded "platform" = some (JsonValue.jstr s) →
      TargetPlatform.members.find?
          (fun q => TargetPlatform.memberName q == s) = some p →
      ∃ d warns, UUFQSetting.from_file loaded = Except.ok (d, warns) ∧
        (∀ k v2, (loaded.map Prod.fst).Nodup → (k, v2) ∈ loaded →
          ¬ k = "platform" → alHasKey (uufqsInitDict p) k = true →
          alFind d k = some v2) ∧
        (∀ k v2, (k, v2) ∈ loaded → alHasKey (uufqsInitDict p) k = false →
          k ∈ warns)) := by
  refine ⟨?ha, ?hb, ?hc, ?hd⟩
  · intro h
    refine ⟨"json document must contain a platform key", ?q1⟩
    unfold UUFQSetting.from_file
    rw [h]
  · intro s hs hns
    refine ⟨"can not parse platform from json document", ?q2⟩
    unfold UUFQSetting.from_file
    rw [hs]
    dsimp only
    rw [memberNames_find_none s hns]
  · intro v hv hnv
    refine ⟨"can not parse platform from json document", ?q3⟩
    unfold UUFQSetting.from_file
    rw [hv]
    cases v with
    | jstr s => exact absurd rfl (hnv s)
    | jint n => rfl
    | jrat q => rfl
    | jbool b => rfl
    | jstrlist xs => rfl
    | jnull => rfl
    | jplatform p => rfl
  · intro s p hs hp
    refine ⟨(applyLoaded (uufqsInitDict p) [] loaded).1,
      (applyLoaded (uufqsInitDict p) [] loaded).2, ?q4, ?q5, ?q6⟩
    case q4 =>
      unfold UUFQSetting.from_file
      rw [hs]
      dsimp only
      rw [hp]
    case q5 =>
      intro k v2 hnd hm hne hk
      exact applyLoaded_recognized k v2 loaded (uufqsInitDict p) [] hnd hm
        hne hk
    case q6 =>
      intro k v2 hm hk
      have hne : ¬ k = "platform" := by
        intro h
        rw [h, uufqsInitDict_has_platform p] at hk
        cases hk
      exact applyLoaded_warns k v2 loaded (uufqsInitDict p) [] hm hne hk

/-- Witness for C9: a document without a platform key fails, an unknown
platform name fails, a non-string platform value fails, and a valid document
with one recognized and one unknown key loads with the recognized field
applied and the unknown key warned. -/
theorem from_file_platform_fatal_unknown_warn_witness :
    (∃ msg, UUFQSetting.from_file [("finetune_steps", JsonValue.jint 10)]
      = Except.error (PPQError.assertionError msg)) ∧
    (∃ msg, UUFQSetting.from_file [("platform", JsonValue.jstr "NOPE")]
      = Except.error (PPQError.keyError msg)) ∧
    (∃ msg, UUFQSetting.from_file [("platform", JsonValue.jint 3)]
      = Except.error (PPQError.keyError msg)) ∧
    ∃ d warns, UUFQSetting.from_file
        [("platform", JsonValue.jstr "TRT_INT8"),
         ("finetune_steps", JsonValue.jint 10),
         ("bogus", JsonValue.jint 1)]
      = Except.ok (d, warns) ∧
      (∀ k v2, (([("platform", JsonValue.jstr "TRT_INT8"),
          ("finetune_steps", JsonValue.jint 10),
          ("bogus", JsonValue.jint 1)] :
            List (String × JsonValue)).map Prod.fst).Nodup →
        (k, v2) ∈ ([("platform", JsonValue.jstr "TRT_INT8"),
          ("finetune_steps", JsonValue.jint 10),
          ("bogus", JsonValue.jint 1)] : List (String × JsonValue)) →
        ¬ k = "platform" →
        alHasKey (uufqsInitDict TargetPlatform.TRT_INT8) k = true →
        alFind d k = some v2) ∧
      (∀ k v2, (k, v2) ∈ ([("platform", JsonValue.jstr "TRT_INT8"),
          ("finetune_steps", JsonValue.jint 10),
          ("bogus", JsonValue.jint 1)] : List (String × JsonValue)) →
        alHasKey (uufqsInitDict TargetPlatform.TRT_INT8) k = false →
        k ∈ warns) :=
  ⟨(from_file_platform_fatal_unknown_warn
      [("finetune_steps", JsonValue.jint 10)]).1 (by decide),
   (from_file_platform_fatal_unknown_warn
      [("platform", JsonValue.jstr "NOPE")]).2.1 "NOPE" (by decide)
      (by decide),
   (from_file_platform_fatal_unknown_warn
      [("platform", JsonValue.jint 3)]).2.2.1 (JsonValue.jint 3) (by decide)
      (fun s h => JsonValue.noConfusion h),
   (from_file_platform_fatal_unknown_warn
      [("platform", JsonValue.jstr "TRT_INT8"),
       ("finetune_steps", JsonValue.jint 10),
       ("bogus", JsonValue.jint 1)]).2.2.2 "TRT_INT8"
      TargetPlatform.TRT_INT8 (by decide) (by decide)⟩
